import Mathlib

/-!
Verification of the imodels repository (marginal-shrinkage linear model and
GMDI importance pipeline) against its natural-language specification.

The Python source is shallowly embedded: numeric arrays become lists of
rationals, estimator objects from the external regression library become
function parameters (their fitted coefficient vectors), and fallible code
returns `Except`.
-/

namespace Imodels

/-- A numeric vector (one-dimensional array). -/
abbrev Vec := List ℚ

/-- A numeric matrix, stored as a list of rows. -/
abbrev Mat := List (List ℚ)

/-- Dot product of two vectors (`np.dot` on equal-length 1-D arrays). -/
def dotQ (a b : Vec) : ℚ := (List.zipWith (fun x y => x * y) a b).sum

/-- Matrix-vector product `X @ v`. -/
def matVec (X : Mat) (v : Vec) : Vec := X.map (fun row => dotQ row v)

/-- Elementwise vector addition. -/
def vecAdd (a b : Vec) : Vec := List.zipWith (fun x y => x + y) a b

/-- Elementwise vector subtraction. -/
def vecSub (a b : Vec) : Vec := List.zipWith (fun x y => x - y) a b

/-- Number of columns of a matrix (`X.shape[1]`). -/
def nCols (X : Mat) : Nat := (X.headD []).length

/-- The `np.sign` on a scalar. -/
def npSign (x : ℚ) : ℚ := if 0 < x then 1 else if x < 0 then -1 else 0

/-! ## Marginal-Shrinkage Linear Model
Embeds `imodels/algebraic/marginal_shrinkage_linear_model.py`.

The external scikit-learn estimators resolved by `_get_est_from_name`
("ridge" = `RidgeCV`, "ols" = `LinearRegression`, "NNLS" = positive
`ElasticNetCV`, all with `fit_intercept=False`) are modelled by a function
parameter `estFit : EstName → Mat → Vec → Vec` giving the coefficient
vector each named estimator would learn on given data.  The two
`StandardScaler`s fitted in `fit` are modelled by function parameters
`sx` / `sy` (their `transform`) and `syInv` (`inverse_transform`). -/

/-- The estimator-name vocabulary accepted by
`MarginalShrinkageLinearModel._get_est_from_name` (both `None` and the
string `"None"` resolve to the absent estimator, collapsed into one tag). -/
inductive EstName
  | ridge
  | ols
  | nnls
  | noneEst
deriving DecidableEq, Repr

/-- Whether `_get_est_from_name` resolves the name to `None`. -/
def resolvesToNone : EstName → Bool
  | .noneEst => true
  | _ => false

/-- Configuration of `MarginalShrinkageLinearModel` relevant to fitting. -/
structure MSLMConfig where
  estMarginalName : EstName
  estMainName : EstName
  marginalDivideByD : Bool
  marginalSignConstraint : Bool
deriving DecidableEq, Repr

/-- The data-dependent state produced by `MarginalShrinkageLinearModel.fit`:
the marginal coefficient vector `coef_marginal_` and the final coefficient
vector of `est_main_` (all estimators are built with `fit_intercept=False`,
so the intercept is zero throughout). -/
structure MSLMFitted where
  coefMarginal : Vec
  coefMain : Vec
deriving DecidableEq, Repr

/-- The single-feature column `X[:, i].reshape(-1, 1)`. -/
def columnOf (X : Mat) (i : Nat) : Mat := X.map (fun row => [row.getD i 0])

/-- The `MarginalShrinkageLinearModel._fit_marginal`: fit the marginal estimator
to each feature column alone, collect the coefficients, and divide by the
feature count when `marginal_divide_by_d` is set.  When the marginal
estimator resolves to `None` the marginal coefficients are all zero. -/
def fitMarginal (estFit : EstName → Mat → Vec → Vec) (name : EstName)
    (divByD : Bool) (X : Mat) (y : Vec) : Vec :=
  let d := nCols X
  let base :=
    if resolvesToNone name then List.replicate d (0 : ℚ)
    else (List.range d).map (fun i => (estFit name (columnOf X i) y).headD 0)
  if divByD then base.map (fun c => c / (d : ℚ)) else base

/-- The `MarginalShrinkageLinearModel.fit` after input validation: standardize
`X` and `y`, fit the marginal coefficients, resolve the main estimator, and
take one of the three mutually exclusive paths (sign-constrained / main
estimator absent / standard residual-fitting).  The `assert` guarding the
sign-constrained path is modelled as `Except.error`. -/
def mslmFit (estFit : EstName → Mat → Vec → Vec) (sx : Mat → Mat)
    (sy : Vec → Vec) (cfg : MSLMConfig) (X : Mat) (y : Vec) :
    Except String MSLMFitted :=
  let Xs := sx X
  let ys := sy y
  let cm := fitMarginal estFit cfg.estMarginalName cfg.marginalDivideByD Xs ys
  if cfg.marginalSignConstraint then
    if cfg.estMainName = EstName.nnls then
      let coefSigns := cm.map npSign
      let Xflip := Xs.map (fun row => List.zipWith (fun a s => a * s) row coefSigns)
      let c0 := estFit EstName.nnls Xflip ys
      Except.ok { coefMarginal := cm,
                  coefMain := List.zipWith (fun a s => a * s) c0 coefSigns }
    else
      Except.error "must use NNLS for sign constraint"
  else if resolvesToNone cfg.estMainName then
    -- fit dummy clf on the first five rows and override its coefficients
    let dummy := estFit EstName.ridge (Xs.take 5) (ys.take 5)
    let _ := dummy
    Except.ok { coefMarginal := cm, coefMain := cm }
  else
    let predsMarginal := matVec Xs cm
    let residuals := vecSub ys predsMarginal
    Except.ok { coefMarginal := cm,
                coefMain := vecAdd (estFit cfg.estMainName Xs residuals) cm }

/-- The `MarginalShrinkageLinearModel.predict`: scale the input, predict with
the main estimator (linear, zero intercept), and invert the `y` scaler. -/
def mslmPredict (sx : Mat → Mat) (syInv : Vec → Vec) (m : MSLMFitted)
    (Xnew : Mat) : Vec :=
  syInv (matVec (sx Xnew) m.coefMain)

end Imodels

namespace Imodels

/-! ### Claims C3, C8, C10, C7 -/

/-- C10: for every `X` with `d` features and every `y`, the marginal
coefficient vector produced by `_fit_marginal` with
`marginal_divide_by_d=True` equals exactly the vector produced with
`marginal_divide_by_d=False` divided elementwise by `d`. -/
theorem fitMarginal_divide_by_d (estFit : EstName → Mat → Vec → Vec)
    (name : EstName) (X : Mat) (y : Vec) :
    fitMarginal estFit name true X y =
      (fitMarginal estFit name false X y).map (fun c => c / (nCols X : ℚ)) := by
  unfold fitMarginal
  simp

/-- C3: whenever `marginal_sign_constraint` is off and `est_main_name` does
not resolve to `None`, `fit` takes the standard path: the final main
coefficient vector is the coefficient vector learned by the main estimator
on the residual target `y_standardized - X_standardized @ coef_marginal_`,
plus `coef_marginal_` added elementwise. -/
theorem mslmFit_standard_residual_identity (estFit : EstName → Mat → Vec → Vec)
    (sx : Mat → Mat) (sy : Vec → Vec) (cfg : MSLMConfig) (X : Mat) (y : Vec)
    (hsc : cfg.marginalSignConstraint = false)
    (hmain : cfg.estMainName ≠ EstName.noneEst) :
    mslmFit estFit sx sy cfg X y =
      Except.ok
        { coefMarginal :=
            fitMarginal estFit cfg.estMarginalName cfg.marginalDivideByD (sx X) (sy y),
          coefMain :=
            vecAdd
              (estFit cfg.estMainName (sx X)
                (vecSub (sy y)
                  (matVec (sx X)
                    (fitMarginal estFit cfg.estMarginalName cfg.marginalDivideByD (sx X) (sy y)))))
              (fitMarginal estFit cfg.estMarginalName cfg.marginalDivideByD (sx X) (sy y)) } := by
  unfold mslmFit
  rw [hsc]
  cases h : cfg.estMainName <;> simp_all [resolvesToNone]

/-- Example estimator-fit interpretation used in witnesses: every named
estimator learns the all-ones coefficient vector of the right width. -/
def wEstFit : EstName → Mat → Vec → Vec := fun _ X _ => List.replicate (nCols X) 1

/-- Witness for C3 at a concrete input. -/
theorem mslmFit_standard_residual_identity_witness :
    mslmFit wEstFit id id ⟨EstName.ridge, EstName.ridge, true, false⟩ [[2], [4]] [1, 5] =
      Except.ok
        { coefMarginal :=
            fitMarginal wEstFit EstName.ridge true (id [[2], [4]]) (id [1, 5]),
          coefMain :=
            vecAdd
              (wEstFit EstName.ridge (id [[2], [4]])
                (vecSub (id [1, 5])
                  (matVec (id [[2], [4]])
                    (fitMarginal wEstFit EstName.ridge true (id [[2], [4]]) (id [1, 5])))))
              (fitMarginal wEstFit EstName.ridge true (id [[2], [4]]) (id [1, 5])) } :=
  mslmFit_standard_residual_identity wEstFit id id
    ⟨EstName.ridge, EstName.ridge, true, false⟩ [[2], [4]] [1, 5] rfl (by decide)

/-- C8: with `est_main_name` resolving to `None` (and no sign constraint),
`fit` succeeds, the final coefficient vector exactly equals the marginal
coefficient vector, and `predict` on any input equals the inverse `y`
scaling of `(scaled input) @ coef_marginal_`. -/
theorem mslmFit_main_none (estFit : EstName → Mat → Vec → Vec)
    (sx : Mat → Mat) (sy : Vec → Vec) (syInv : Vec → Vec)
    (cfg : MSLMConfig) (X : Mat) (y : Vec)
    (hsc : cfg.marginalSignConstraint = false)
    (hmain : cfg.estMainName = EstName.noneEst) :
    ∃ r, mslmFit estFit sx sy cfg X y = Except.ok r
      ∧ r.coefMain =
          fitMarginal estFit cfg.estMarginalName cfg.marginalDivideByD (sx X) (sy y)
      ∧ r.coefMarginal = r.coefMain
      ∧ ∀ Xnew, mslmPredict sx syInv r Xnew =
          syInv (matVec (sx Xnew)
            (fitMarginal estFit cfg.estMarginalName cfg.marginalDivideByD (sx X) (sy y))) := by
  have hfit : mslmFit estFit sx sy cfg X y =
      Except.ok
        { coefMarginal :=
            fitMarginal estFit cfg.estMarginalName cfg.marginalDivideByD (sx X) (sy y),
          coefMain :=
            fitMarginal estFit cfg.estMarginalName cfg.marginalDivideByD (sx X) (sy y) } := by
    unfold mslmFit
    rw [hsc, hmain]
    simp [resolvesToNone]
  exact ⟨_, hfit, rfl, rfl, fun Xnew => rfl⟩

/-- Witness for C8 at a concrete input. -/
theorem mslmFit_main_none_witness :
    ∃ r, mslmFit wEstFit id id ⟨EstName.ridge, EstName.noneEst, true, false⟩ [[2], [4]] [1, 5] =
        Except.ok r
      ∧ r.coefMain =
          fitMarginal wEstFit EstName.ridge true (id [[2], [4]]) (id [1, 5])
      ∧ r.coefMarginal = r.coefMain
      ∧ ∀ Xnew, mslmPredict id id r Xnew =
          id (matVec (id Xnew)
            (fitMarginal wEstFit EstName.ridge true (id [[2], [4]]) (id [1, 5]))) :=
  mslmFit_main_none wEstFit id id id ⟨EstName.ridge, EstName.noneEst, true, false⟩
    [[2], [4]] [1, 5] rfl rfl

/-- Elementwise sign fact: multiplying a nonnegative vector elementwise by
the sign vector of `cm` yields entries sharing the sign of `cm` (or zero);
out-of-range positions default to zero, which also satisfies the claim. -/
theorem zipWith_sign_entries (c0 cm : Vec) (hpos : ∀ x ∈ c0, 0 ≤ x) (k : Nat) :
    (0 < cm.getD k 0 → 0 ≤ (List.zipWith (fun a s => a * s) c0 (cm.map npSign)).getD k 0)
    ∧ (cm.getD k 0 < 0 → (List.zipWith (fun a s => a * s) c0 (cm.map npSign)).getD k 0 ≤ 0)
    ∧ (cm.getD k 0 = 0 → (List.zipWith (fun a s => a * s) c0 (cm.map npSign)).getD k 0 = 0) := by
  revert hpos
  induction c0 generalizing cm k with
  | nil => intro _; simp
  | cons a t ih =>
    intro hpos
    cases cm with
    | nil => simp
    | cons c cs =>
      have ha : (0 : ℚ) ≤ a := hpos a (List.mem_cons_self a t)
      have ht : ∀ x ∈ t, (0 : ℚ) ≤ x := fun x hx => hpos x (List.mem_cons_of_mem a hx)
      cases k with
      | zero =>
        refine ⟨fun hc => ?_, fun hc => ?_, fun hc => ?_⟩
        · simp only [List.map_cons, List.zipWith_cons_cons, List.getD_cons_zero] at *
          unfold npSign
          rw [if_pos hc]
          simpa using ha
        · simp only [List.map_cons, List.zipWith_cons_cons, List.getD_cons_zero] at *
          unfold npSign
          rw [if_neg (by linarith), if_pos hc]
          nlinarith
        · simp only [List.map_cons, List.zipWith_cons_cons, List.getD_cons_zero] at *
          unfold npSign
          rw [if_neg (by simp [hc]), if_neg (by simp [hc])]
          simp
      | succ k =>
        simpa using ih cs k ht

/-- C7: with `marginal_sign_constraint=True`, `fit` fails with the
invalid-configuration assertion error exactly when `est_main_name` is not
`"NNLS"`; and when it is `"NNLS"` (so that the positive elastic net, whose
learned coefficients are nonnegative, is used on the sign-flipped data),
every final fitted coefficient has the same sign as its corresponding
marginal coefficient or is zero. -/
theorem mslmFit_sign_constraint (estFit : EstName → Mat → Vec → Vec)
    (sx : Mat → Mat) (sy : Vec → Vec) (cfg : MSLMConfig) (X : Mat) (y : Vec)
    (hsc : cfg.marginalSignConstraint = true)
    (hpos : ∀ A b, ∀ x ∈ estFit EstName.nnls A b, 0 ≤ x) :
    ((∃ e, mslmFit estFit sx sy cfg X y = Except.error e) ↔
        cfg.estMainName ≠ EstName.nnls)
    ∧ (∀ r, mslmFit estFit sx sy cfg X y = Except.ok r →
        ∀ k, (0 < r.coefMarginal.getD k 0 → 0 ≤ r.coefMain.getD k 0)
          ∧ (r.coefMarginal.getD k 0 < 0 → r.coefMain.getD k 0 ≤ 0)
          ∧ (r.coefMarginal.getD k 0 = 0 → r.coefMain.getD k 0 = 0)) := by
  unfold mslmFit
  rw [hsc]
  by_cases hm : cfg.estMainName = EstName.nnls
  · rw [if_pos rfl, if_pos hm]
    constructor
    · simp [hm]
    · intro r hr k
      have hco : r.coefMarginal = fitMarginal estFit cfg.estMarginalName cfg.marginalDivideByD (sx X) (sy y)
          ∧ r.coefMain = List.zipWith (fun a s => a * s)
              (estFit EstName.nnls
                ((sx X).map (fun row => List.zipWith (fun a s => a * s) row
                  ((fitMarginal estFit cfg.estMarginalName cfg.marginalDivideByD (sx X) (sy y)).map npSign)))
                (sy y))
              ((fitMarginal estFit cfg.estMarginalName cfg.marginalDivideByD (sx X) (sy y)).map npSign) := by
        simp only [Except.ok.injEq] at hr
        cases hr
        exact ⟨rfl, rfl⟩
      rw [hco.1, hco.2]
      exact zipWith_sign_entries _ _ (hpos _ _) k
  · rw [if_pos rfl, if_neg hm]
    constructor
    · simp [hm]
    · intro r hr
      simp at hr

/-- Witness for C7 at concrete inputs: the sign-constrained configuration
with the NNLS main estimator. -/
theorem mslmFit_sign_constraint_witness :
    ((∃ e, mslmFit wEstFit id id ⟨EstName.ridge, EstName.nnls, true, true⟩ [[2], [4]] [1, 5] =
        Except.error e) ↔
        (⟨EstName.ridge, EstName.nnls, true, true⟩ : MSLMConfig).estMainName ≠ EstName.nnls)
    ∧ (∀ r, mslmFit wEstFit id id ⟨EstName.ridge, EstName.nnls, true, true⟩ [[2], [4]] [1, 5] =
          Except.ok r →
        ∀ k, (0 < r.coefMarginal.getD k 0 → 0 ≤ r.coefMain.getD k 0)
          ∧ (r.coefMarginal.getD k 0 < 0 → r.coefMain.getD k 0 ≤ 0)
          ∧ (r.coefMarginal.getD k 0 = 0 → r.coefMain.getD k 0 = 0)) :=
  mslmFit_sign_constraint wEstFit id id ⟨EstName.ridge, EstName.nnls, true, true⟩
    [[2], [4]] [1, 5] rfl
    (by
      intro A b x hx
      unfold wEstFit at hx
      have := List.eq_of_mem_replicate hx
      simp [this])

/-! ## GMDI importance pipeline
Embeds the relevant parts of `imodels/importance/r2f_exp_cleaned.py`. -/

/-- A possibly-NaN numeric value: `Option.none` models IEEE NaN at the
places where the code manipulates NaN deliberately. -/
abbrev NVal := Option ℚ

/-- The `np.nanmean` of a 1-D array: the mean of the non-NaN entries, NaN when
every entry is NaN. -/
def nanmean1 (xs : List NVal) : NVal :=
  if (xs.filterMap id).isEmpty then Option.none
  else some ((xs.filterMap id).sum / ((xs.filterMap id).length : ℚ))

/-- The `np.nanmean(rows, axis=0)` for a list of equal-length 1-D arrays. -/
def nanmeanAxis0 (rows : List (List NVal)) : List NVal :=
  (List.range (rows.headD []).length).map
    (fun k => nanmean1 (rows.map (fun r => r.getD k Option.none)))

/-- The `GMDIEnsemble._fit_importance_scores`: assert the sample counts agree,
collect every member's score vector on the same `X`, `y` (each member is
modelled by its `get_scores` function), and NaN-mean them elementwise. -/
def ensembleFitScores (memberGetScores : List (Mat → Vec → List NVal))
    (X : Mat) (y : Vec) : Except String (List NVal) :=
  if X.length = y.length then
    Except.ok (nanmeanAxis0 (memberGetScores.map (fun g => g X y)))
  else
    Except.error "AssertionError"

/-- Block-partitioned data (the external `BlockPartitionedData` interface):
one block of derived columns per original feature; `blocks[k]` is the
`n_samples × w_k` sub-matrix of block `k`, and the concatenation of all
blocks in order is the full transformed representation. -/
structure BPD where
  blocks : List Mat
deriving Repr

/-- The `n_blocks`. -/
def BPD.nBlocks (b : BPD) : Nat := b.blocks.length

/-- The `n_samples`. -/
def BPD.nSamples (b : BPD) : Nat := (b.blocks.headD []).length

/-- Width (column count) of block `k`. -/
def BPD.blockWidth (b : BPD) (k : Nat) : Nat := nCols (b.blocks.getD k [])

/-- The `get_block(k)`: the sub-matrix of block `k`. -/
def BPD.getBlock (b : BPD) (k : Nat) : Mat := b.blocks.getD k []

/-- Total column count of the concatenated representation
(`get_all_data().shape[1]`). -/
def BPD.nColsTotal (b : BPD) : Nat := (b.blocks.map nCols).sum

/-- The `get_all_data()`: horizontal concatenation of all blocks. -/
def BPD.getAllData (b : BPD) : Mat :=
  (List.range b.nSamples).map
    (fun i => (b.blocks.map (fun blk => blk.getD i [])).flatten)

/-- First column index of block `k` in the concatenated representation. -/
def BPD.blockStart (b : BPD) (k : Nat) : Nat :=
  ((b.blocks.take k).map nCols).sum

/-- The `get_block_indices(k)`: the column indices of block `k` in the
concatenated representation. -/
def BPD.getBlockIndices (b : BPD) (k : Nat) : List Nat :=
  (List.range (b.blockWidth k)).map (fun j => b.blockStart k + j)

/-- The `get_all_except_block_indices(k)`. -/
def BPD.getAllExceptBlockIndices (b : BPD) (k : Nat) : List Nat :=
  (List.range b.nColsTotal).filter (fun j => !((b.getBlockIndices k).contains j))

/-- The `get_all_except_block(k)`: the complement sub-matrix. -/
def BPD.getAllExceptBlock (b : BPD) (k : Nat) : Mat :=
  (List.range b.nSamples).map
    (fun i => ((b.blocks.eraseIdx k).map (fun blk => blk.getD i [])).flatten)

/-- A numpy target array, 1-D or 2-D.  Note `ndim` of a 2-D array is `2`
whatever its column count. -/
inductive PyY
  | one (v : Vec)
  | two (m : Mat)
deriving Repr

/-- The `y.ndim`. -/
def PyY.ndim : PyY → Nat
  | .one _ => 1
  | .two _ => 2

/-- The `y[:, j]` of a 2-D target (a 1-D target is returned whole). -/
def PyY.col (y : PyY) (j : Nat) : Vec :=
  match y with
  | .one v => v
  | .two m => m.map (fun row => row.getD j 0)

/-- View a 1-D target as a plain vector. -/
def PyY.asVec : PyY → Vec
  | .one v => v
  | .two _ => []

/-- The partial-parameter payload returned by a partial-prediction model:
either a 1-D parameter array / plain list, or a 2-D per-held-out-sample
LOO parameter matrix. -/
inductive PParams
  | oneD (l : Vec)
  | twoD (m : Mat)
deriving DecidableEq, Repr

/-- Python `len` of a parameter payload (rows for a 2-D array). -/
def pLen : PParams → Nat
  | .oneD l => l.length
  | .twoD m => m.length

/-- First scalar entry of a parameter payload. -/
def pFirstScalar : PParams → ℚ
  | .oneD l => l.getD 0 0
  | .twoD m => (m.headD []).getD 0 0

/-- Last column `params[:, -1]` of a 2-D parameter matrix. -/
def pLastCol (m : Mat) : Vec := m.map (fun row => row.getD (row.length - 1) 0)

/-- The fitted outputs of a partial-prediction model after
`ppm.fit(train, y_train, test, y_test, mode)`: the stored full prediction
and, per block, the stored partial prediction and partial parameters. -/
structure PPMOut where
  fullPreds : Vec
  partsPreds : Nat → Vec
  partsParams : Nat → PParams

/-- The configured partial-prediction model, modelled by what its `fit`
computes from (train data, y_train, test data, y_test, mode). -/
abbrev PPMFit := BPD → Vec → BPD → Vec → String → PPMOut

/-- The `GMDI._fit_one_target`: fit the (possibly deep-copied, when
`multitarget` is set) partial-prediction model and collect the full
prediction and the per-feature partial predictions and parameters.
Returns the source's 3-tuple. -/
def fitOneTarget (ppm : PPMFit) (nFeatures : Nat) (trainB : BPD) (yTr : Vec)
    (testB : BPD) (yTe : Vec) (mode : String) (multitarget : Bool) :
    Vec × List Vec × List PParams :=
  let _ := multitarget
  let out := ppm trainB yTr testB yTe mode
  (out.fullPreds, (List.range nFeatures).map out.partsPreds,
    (List.range nFeatures).map out.partsParams)

/-- A dynamically-typed Python value, used to model tuple unpacking. -/
inductive PyObj
  | vecObj (v : Vec)
  | dictVecObj (d : List Vec)
  | dictParamsObj (d : List PParams)
deriving Repr

/-- The `_fit_one_target` seen as the dynamic 3-tuple it returns. -/
def fitOneTargetTuple (ppm : PPMFit) (nFeatures : Nat) (trainB : BPD)
    (yTr : Vec) (testB : BPD) (yTe : Vec) (mode : String)
    (multitarget : Bool) : List PyObj :=
  let r := fitOneTarget ppm nFeatures trainB yTr testB yTe mode multitarget
  [PyObj.vecObj r.1, PyObj.dictVecObj r.2.1, PyObj.dictParamsObj r.2.2]

/-- Python tuple unpacking `a, b = t`: fails unless `t` has exactly two
components. -/
def pyUnpack2 (t : List PyObj) : Except String (PyObj × PyObj) :=
  match t with
  | [a, b] => Except.ok (a, b)
  | _ => Except.error "too many values to unpack"

/-- The scoring function handed to `GMDI`: either the literal `"mdi_oob"`
tag or a callable. -/
inductive ScoringFn
  | mdiOob
  | fn (f : Vec → Vec → ℚ)

/-- The `GMDI._score_partial_predictions`: in `keep_k` mode score each block's
partial prediction (with the three-way `"mdi_oob"` baseline cases); in
`keep_rest` mode score the difference against the full prediction.  The
scores array starts as zeros, so an unrecognized mode leaves zeros.
Calling the `"mdi_oob"` string tag as a function raises. -/
def scoreParts (mode : String) (scoring : ScoringFn) (nFeat : Nat)
    (fullPreds : Vec) (partsParams : List PParams) (partsPreds : List Vec)
    (yTest : Vec) : Except String (List NVal) :=
  if mode = "keep_k" then
    Except.ok ((List.range nFeat).map (fun k =>
      match scoring with
      | .mdiOob =>
        let pp := partsParams.getD k (PParams.oneD [])
        let pr := partsPreds.getD k []
        if pLen pp = 1 then
          some (dotQ yTest (pr.map (fun v => v - pFirstScalar pp)) / (yTest.length : ℚ))
        else
          match pp with
          | .oneD l =>
            some (dotQ yTest (pr.map (fun v => v - l.getD (l.length - 1) 0)) / (yTest.length : ℚ))
          | .twoD m =>
            some (dotQ yTest (vecSub pr (pLastCol m)) / (yTest.length : ℚ))
      | .fn f => some (f yTest (partsPreds.getD k []))))
  else if mode = "keep_rest" then
    match scoring with
    | .mdiOob => Except.error "TypeError: str object is not callable"
    | .fn f =>
      let fullScore := f yTest fullPreds
      Except.ok ((List.range nFeat).map
        (fun k => some (fullScore - f yTest (partsPreds.getD k []))))
  else
    Except.ok (List.replicate nFeat (some 0))

/-- The fitted state of a `GMDI` object. -/
structure GMDIState where
  scores : List NVal
  isFitted : Bool
deriving Repr

/-- The `GMDI._fit_importance_scores` from the point where the transformed
block-partitioned representation and the train/held-out partition are in
hand (the transformer, the raw-feature rescaling and the bootstrap OOB
split involve external library objects and are supplied by the caller;
with `oob=False` the train and test partitions both equal the full data).
If the learnt representation is empty, every one of `X`'s features scores
NaN.  A 1-D target is fitted and scored once; a 2-D target enters the loop
`for j in range(y.ndim)`, whose body unpacks the 3-tuple returned by
`_fit_one_target` into two names, and whose sequel reads the never-assigned
name `partial_params`. -/
def fitImportanceScoresCore (ppm : PPMFit) (scoring : ScoringFn)
    (mode : String) (nFeatX : Nat) (trainB testB : BPD)
    (yFull yTrain yTest : PyY) : Except String GMDIState :=
  let nFeatures := trainB.nBlocks
  if trainB.nColsTotal = 0 then
    Except.ok { scores := List.replicate nFeatX Option.none, isFitted := true }
  else
    match yFull with
    | .one _ =>
      let r := fitOneTarget ppm nFeatures trainB yTrain.asVec testB yTest.asVec mode false
      match scoreParts mode scoring nFeatures r.1 r.2.2 r.2.1 yTest.asVec with
      | .error e => Except.error e
      | .ok s => Except.ok { scores := s, isFitted := true }
    | .two _ =>
      match (List.range yFull.ndim).mapM (fun j =>
          pyUnpack2 (fitOneTargetTuple ppm nFeatures trainB (yTrain.col j)
            testB (yTest.col j) mode true)) with
      | .error e => Except.error e
      | .ok _ =>
        -- were the unpacking to succeed, scoring would still read the
        -- never-assigned name `partial_params`
        Except.error "NameError: name partial_params is not defined"

/-! ### Claims C5, C1, C4 -/

/-- C5: whenever the transformed training representation has zero columns,
`_fit_importance_scores` records NaN for every one of `X`'s features, raises
no error, and still marks the `GMDI` object fitted. -/
theorem gmdi_empty_representation (ppm : PPMFit) (scoring : ScoringFn)
    (mode : String) (nFeatX : Nat) (trainB testB : BPD) (yF yTr yTe : PyY)
    (h : trainB.nColsTotal = 0) :
    fitImportanceScoresCore ppm scoring mode nFeatX trainB testB yF yTr yTe =
      Except.ok { scores := List.replicate nFeatX Option.none, isFitted := true } := by
  unfold fitImportanceScoresCore
  simp [h]

/-- Example partial-prediction model used in concrete instances. -/
def wPPM : PPMFit := fun _ _ _ _ _ =>
  { fullPreds := [1], partsPreds := fun _ => [1],
    partsParams := fun _ => PParams.oneD [1] }

/-- Witness for C5: an empty block set on a 3-feature `X`. -/
theorem gmdi_empty_representation_witness :
    fitImportanceScoresCore wPPM (ScoringFn.fn (fun _ _ => 0)) "keep_k" 3
        ⟨[]⟩ ⟨[]⟩ (PyY.one [1]) (PyY.one [1]) (PyY.one [1]) =
      Except.ok { scores := List.replicate 3 Option.none, isFitted := true } :=
  gmdi_empty_representation wPPM (ScoringFn.fn (fun _ _ => 0)) "keep_k" 3
    ⟨[]⟩ ⟨[]⟩ (PyY.one [1]) (PyY.one [1]) (PyY.one [1]) rfl

/-- C1 (code bug): on any multi-column target the multi-target loop of
`_fit_importance_scores` unpacks the 3-tuple returned by `_fit_one_target`
into two names and fails; and since the loop runs over `range(y.ndim)`,
which is `range(2)` for every 2-D target, a 3-column target would in any
case have only its first two columns visited. -/
theorem gmdi_multitarget_failure :
    fitImportanceScoresCore wPPM (ScoringFn.fn (fun _ _ => 0)) "keep_k" 1
        ⟨[[[1]]]⟩ ⟨[[[1]]]⟩ (PyY.two [[1, 0], [0, 1]]) (PyY.two [[1, 0], [0, 1]])
        (PyY.two [[1, 0], [0, 1]]) =
      Except.error "too many values to unpack"
    ∧ List.range (PyY.two [[1, 0, 0], [0, 1, 0], [0, 0, 1]]).ndim = [0, 1] := by
  constructor
  · rfl
  · rfl

/-- The `filterMap id` of an option list is empty exactly when every entry is
`none`. -/
theorem filterMap_id_nil (xs : List NVal) :
    xs.filterMap id = [] ↔ ∀ x ∈ xs, x = Option.none := by
  induction xs with
  | nil => simp
  | cons a t ih =>
    cases a with
    | none => simp [ih]
    | some v => simp

/-- The `np.nanmean` of a 1-D array is NaN exactly when every entry is NaN. -/
theorem nanmean1_eq_none_iff (xs : List NVal) :
    nanmean1 xs = Option.none ↔ ∀ x ∈ xs, x = Option.none := by
  rw [← filterMap_id_nil]
  unfold nanmean1
  rcases hfm : xs.filterMap id with _ | ⟨a, t⟩ <;> simp [hfm]

/-- Indexing a mapped range. -/
theorem getD_map_range (n k : Nat) (f : Nat → α) (d : α) (hk : k < n) :
    ((List.range n).map f).getD k d = f k := by
  rw [List.getD_eq_getElem?_getD, List.getElem?_map, List.getElem?_range hk]
  rfl

/-- C4: the ensemble score vector is the elementwise NaN-ignoring mean of
the members' score vectors; concretely, members scoring 2.0, NaN, 4.0 on a
feature average to exactly 3.0, and an ensemble entry is NaN exactly when
every member's entry is NaN. -/
theorem ensemble_nanmean_scores (members : List (Mat → Vec → List NVal))
    (X : Mat) (y : Vec) (n k : Nat)
    (hXy : X.length = y.length) (hne : members ≠ [])
    (hlen : ∀ g ∈ members, (g X y).length = n) (hk : k < n) :
    ∃ s, ensembleFitScores members X y = Except.ok s
      ∧ s.getD k (some 0) = nanmean1 (members.map (fun g => (g X y).getD k Option.none))
      ∧ (s.getD k (some 0) = Option.none ↔
          ∀ g ∈ members, (g X y).getD k Option.none = Option.none)
      ∧ ensembleFitScores
          [fun _ _ => [some 2], fun _ _ => [Option.none], fun _ _ => [some 4]]
          [[0]] [0] = Except.ok [some 3] := by
  have hhead : ((members.map (fun g => g X y)).headD []).length = n := by
    cases members with
    | nil => exact absurd rfl hne
    | cons g rest => simp [hlen g (List.mem_cons_self g rest)]
  have hget : (nanmeanAxis0 (members.map (fun g => g X y))).getD k (some 0)
      = nanmean1 (members.map (fun g => (g X y).getD k Option.none)) := by
    unfold nanmeanAxis0
    rw [hhead, getD_map_range _ _ _ _ hk]
    simp [List.map_map, Function.comp_def]
  refine ⟨_, ?_, hget, ?_, ?_⟩
  · unfold ensembleFitScores
    rw [if_pos hXy]
  · rw [hget, nanmean1_eq_none_iff]
    constructor
    · intro h g hg
      exact h _ (List.mem_map_of_mem _ hg)
    · intro h x hx
      rcases List.mem_map.mp hx with ⟨g, hg, rfl⟩
      exact h g hg
  · norm_num [ensembleFitScores, nanmeanAxis0, nanmean1, List.range_succ,
      List.filterMap]
    intro h
    exact absurd h (by simp)

/-- The three-member ensemble of C4's concrete example. -/
def wMembers : List (Mat → Vec → List NVal) :=
  [fun _ _ => [some 2], fun _ _ => [Option.none], fun _ _ => [some 4]]

/-- Witness for C4 at the concrete three-member ensemble. -/
theorem ensemble_nanmean_scores_witness :
    ∃ s, ensembleFitScores wMembers [[0]] [0] = Except.ok s
      ∧ s.getD 0 (some 0) = nanmean1 (wMembers.map (fun g => (g [[0]] [0]).getD 0 Option.none))
      ∧ (s.getD 0 (some 0) = Option.none ↔
          ∀ g ∈ wMembers, (g [[0]] [0]).getD 0 Option.none = Option.none)
      ∧ ensembleFitScores
          [fun _ _ => [some 2], fun _ _ => [Option.none], fun _ _ => [some 4]]
          [[0]] [0] = Except.ok [some 3] :=
  ensemble_nanmean_scores wMembers [[0]] [0] 1 0 rfl
    (by simp [wMembers])
    (by
      intro g hg
      unfold wMembers at hg
      simp only [List.mem_cons, List.not_mem_nil, or_false] at hg
      rcases hg with rfl | rfl | rfl <;> rfl)
    (by decide)

/-! ## Approximate leave-one-out calculator and LOO partial predictions -/

/-- Elementwise product of equal-shaped matrices. -/
def elemMulM (A B : Mat) : Mat :=
  List.zipWith (fun ra rb => List.zipWith (fun a b => a * b) ra rb) A B

/-- Matrix product. -/
def matMul (A B : Mat) : Mat :=
  A.map (fun row => (List.transpose B).map (fun col => dotQ row col))

/-- Scale every column `i` of `m` by `w[i]` (numpy broadcasting
`m * w` for a `(d+1) × n` matrix against a length-`n` vector). -/
def scaleColumns (m : Mat) (w : Vec) : Mat :=
  m.map (fun row => List.zipWith (fun x wi => x * wi) row w)

/-- Scalar multiple of a matrix. -/
def scaleM (c : ℚ) (A : Mat) : Mat := A.map (fun row => row.map (fun x => c * x))

/-- Matrix sum. -/
def addM (A B : Mat) : Mat := List.zipWith vecAdd A B

/-- Diagonal matrix from a vector. -/
def diagM (v : Vec) : Mat :=
  (List.range v.length).map (fun i =>
    (List.range v.length).map (fun j => if i = j then v.getD i 0 else 0))

/-- The `np.sum(m, axis=0)`. -/
def sumAxis0 (A : Mat) : Vec :=
  A.foldr (fun r acc => List.zipWith (fun a b => a + b) r acc)
    (List.replicate (nCols A) 0)

/-- Delete column `j` from a row. -/
def stripCol (j : Nat) (row : Vec) : Vec := row.take j ++ row.drop (j + 1)

/-- Determinant by first-row cofactor expansion. -/
def detM (m : Mat) : ℚ :=
  match m with
  | [] => 1
  | r :: rest =>
    ((List.range r.length).map (fun j =>
      (-1 : ℚ) ^ j * r.getD j 0 * detM (rest.map (stripCol j)))).sum
termination_by m.length
decreasing_by simp [List.length_map]

/-- The `(i, j)` minor of a matrix. -/
def minorM (m : Mat) (i j : Nat) : Mat :=
  (m.take i ++ m.drop (i + 1)).map (stripCol j)

/-- Adjugate matrix. -/
def adjugateM (m : Mat) : Mat :=
  (List.range m.length).map (fun i =>
    (List.range m.length).map (fun j =>
      (-1 : ℚ) ^ (i + j) * detM (minorM m j i)))

/-- The `np.linalg.inv` in closed (adjugate) form; `none` models the
`LinAlgError` raised on a singular matrix. -/
def matInvM (m : Mat) : Option Mat :=
  if detM m = 0 then Option.none else some (scaleM (1 / detM m) (adjugateM m))

/-- The external GLM estimator wrapped by `GlmAlooCalculator`, modelled by
its attribute surface: which regularization knob it exposes (`alpha` / `C`),
whether it has a Huber `epsilon`, its current knob setting, the coefficient
vector and intercept its (external) `fit` would learn at a given knob
setting, and its fitted `coef_` / `intercept_` attributes once fit ran. -/
structure GlmEstimator where
  hasAlpha : Bool
  hasC : Bool
  hasEpsilon : Bool
  epsilon : ℚ
  regParam : ℚ
  fitCoefFn : ℚ → Mat → Vec → Vec
  fitInterceptFn : ℚ → Mat → Vec → ℚ
  coefAttr : Option Vec
  interceptAttr : Option ℚ

/-- The `GlmAlooCalculator` state: the wrapped estimator, the link/loss
derivative plumbing (two-argument forms, plus the three-argument forms used
when the estimator exposes a Huber `epsilon`), the optional regularizer
curvature and trim fraction, and the one-shot cache
`loo_fitted_parameters` (only the members exercised by the claims under
verification are carried). -/
structure GlmAlooCalculator where
  est : GlmEstimator
  alphaGrid : List ℚ
  linkFn : ℚ → ℚ
  lDot : ℚ → ℚ → ℚ
  lDoubledot : ℚ → ℚ → ℚ
  lDotEps : ℚ → ℚ → ℚ → ℚ
  lDoubledotEps : ℚ → ℚ → ℚ → ℚ
  rDoubledot : Option (Vec → ℚ)
  trim : Option ℚ
  looFittedParameters : Option Mat

/-- Lines setting the regularization knob in
`get_aloo_fitted_parameters`: set `alpha` directly if present, else `C` as
`1/alpha`, else silently rebind `alpha = 0`.  Returns the updated estimator
and the `alpha` value the curvature term will use.  No warning is issued. -/
def setRegKnob (e : GlmEstimator) (alpha : ℚ) : GlmEstimator × ℚ :=
  if e.hasAlpha then ({ e with regParam := alpha }, alpha)
  else if e.hasC then ({ e with regParam := 1 / alpha }, alpha)
  else (e, 0)

/-- The non-cached body of `GlmAlooCalculator.get_aloo_fitted_parameters`:
set the knob, fit a deep copy of the estimator on the full data, build the
weighted information matrix `J` (with the regularizer curvature added under
`alpha`, the intercept entry zeroed), and apply the closed-form first-order
leave-one-out correction.  Returns the per-sample coefficient matrix (one
column per held-out sample) and the fitted estimator copy. -/
def alooCompute (clc : GlmAlooCalculator) (X : Mat) (y : Vec) (alphaIn : ℚ) :
    Except String (Mat × GlmEstimator) :=
  let knob := setRegKnob clc.est alphaIn
  let est1 := knob.1
  let alpha := knob.2
  let coef := est1.fitCoefFn est1.regParam X y
  let intercept := est1.fitInterceptFn est1.regParam X y
  let fitted := { est1 with coefAttr := some coef, interceptAttr := some intercept }
  let X1 := X.map (fun row => row ++ [1])
  let aug := coef ++ [intercept]
  let origPreds := X1.map (fun row => clc.linkFn (dotQ row aug))
  let lddVals :=
    if est1.hasEpsilon then
      List.zipWith (fun a b => clc.lDoubledotEps a b est1.epsilon) y origPreds
    else List.zipWith clc.lDoubledot y origPreds
  let J0 := matMul (scaleColumns (List.transpose X1) lddVals) X1
  let J :=
    match clc.rDoubledot with
    | some rdd =>
      let rv := (List.replicate aug.length (rdd aug)).set (aug.length - 1) 0
      addM J0 (scaleM alpha (diagM rv))
    | Option.none => J0
  match matInvM J with
  | Option.none => Except.error "LinAlgError: singular matrix"
  | some Jinv =>
    let normalEqnMat := matMul Jinv (List.transpose X1)
    let hVals := List.zipWith (fun s l => s * l)
      (sumAxis0 (elemMulM (List.transpose X1) normalEqnMat)) lddVals
    let ldVals :=
      if est1.hasEpsilon then
        List.zipWith (fun a b => clc.lDotEps a b est1.epsilon) y origPreds
      else List.zipWith clc.lDot y origPreds
    let looFit := List.zipWith (fun augA row =>
        List.zipWith (fun ne pr => augA + ne * Prod.fst pr / (1 - Prod.snd pr))
          row (ldVals.zip hVals)) aug normalEqnMat
    Except.ok (looFit, fitted)

/-- The `GlmAlooCalculator.get_aloo_fitted_parameters`: return the cached
matrix unchanged when present; otherwise compute from the arguments,
storing the result and the fitted estimator copy when `cache` is set (the
knob mutation on the stored estimator persists either way).  Returns the
result, the updated calculator, and the warnings issued during the call
(none are ever issued by this function). -/
def getAlooFittedParameters (clc : GlmAlooCalculator) (X : Mat) (y : Vec)
    (alphaIn : ℚ) (cache : Bool) :
    Except String Mat × GlmAlooCalculator × List String :=
  match clc.looFittedParameters with
  | some m => (Except.ok m, clc, [])
  | Option.none =>
    let estKnob := (setRegKnob clc.est alphaIn).1
    match alooCompute clc X y alphaIn with
    | Except.error e => (Except.error e, { clc with est := estKnob }, [])
    | Except.ok p =>
      if cache then
        (Except.ok p.1, { clc with est := p.2, looFittedParameters := some p.1 }, [])
      else
        (Except.ok p.1, { clc with est := estKnob }, [])

/-! ### Claims C6, C9 -/

/-- C6: once a per-sample coefficient matrix is cached, every subsequent
`get_aloo_fitted_parameters` call returns it unchanged whatever `X`, `y`,
`alpha` or `cache` are passed (shown at two arbitrary argument tuples);
before any caching call the result is recomputed from the arguments by the
closed-form body, and a `cache=False` call leaves the cache empty. -/
theorem aloo_one_shot_caching (clc : GlmAlooCalculator) (M : Mat)
    (X X' : Mat) (y y' : Vec) (a a' : ℚ) (c c' : Bool) :
    (clc.looFittedParameters = some M →
      getAlooFittedParameters clc X y a c = (Except.ok M, clc, [])
      ∧ getAlooFittedParameters clc X' y' a' c' = (Except.ok M, clc, []))
    ∧ (clc.looFittedParameters = Option.none →
      (getAlooFittedParameters clc X y a c).1 = (alooCompute clc X y a).map Prod.fst
      ∧ (c = false →
        (getAlooFittedParameters clc X y a c).2.1.looFittedParameters = Option.none)) := by
  constructor
  · intro h
    constructor <;> simp [getAlooFittedParameters, h]
  · intro h
    constructor
    · unfold getAlooFittedParameters
      rw [h]
      rcases hcomp : alooCompute clc X y a with e | p
      · simp [hcomp, Except.map]
      · rcases c <;> simp [hcomp, Except.map]
    · intro hc
      subst hc
      unfold getAlooFittedParameters
      rw [h]
      rcases hcomp : alooCompute clc X y a with e | p <;> simp [hcomp]

/-- An estimator exposing an `alpha` knob, used in witnesses. -/
def wAlphaEst : GlmEstimator :=
  { hasAlpha := true, hasC := false, hasEpsilon := false, epsilon := 0,
    regParam := 1, fitCoefFn := fun _ _ _ => [1],
    fitInterceptFn := fun _ _ _ => 0,
    coefAttr := Option.none, interceptAttr := Option.none }

/-- A calculator with an already-populated cache, used in witnesses. -/
def wCalcCached : GlmAlooCalculator :=
  { est := wAlphaEst, alphaGrid := [1], linkFn := fun a => a,
    lDot := fun a b => b - a, lDoubledot := fun _ _ => 1,
    lDotEps := fun a b _ => b - a, lDoubledotEps := fun _ _ _ => 1,
    rDoubledot := some (fun _ => 1), trim := Option.none,
    looFittedParameters := some [[5]] }

/-- A fresh calculator with an empty cache, used in witnesses. -/
def wCalcFresh : GlmAlooCalculator :=
  { wCalcCached with looFittedParameters := Option.none }

/-- Witness for C6: the cached calculator ignores two different argument
tuples; the fresh calculator recomputes and stays uncached. -/
theorem aloo_one_shot_caching_witness :
    (getAlooFittedParameters wCalcCached [[1]] [2] 3 true =
        (Except.ok [[5]], wCalcCached, [])
      ∧ getAlooFittedParameters wCalcCached [[9]] [7] 4 false =
        (Except.ok [[5]], wCalcCached, []))
    ∧ ((getAlooFittedParameters wCalcFresh [[1]] [2] 3 false).1 =
        (alooCompute wCalcFresh [[1]] [2] 3).map Prod.fst
      ∧ (getAlooFittedParameters wCalcFresh [[1]] [2] 3 false).2.1.looFittedParameters =
        Option.none) := by
  constructor
  · exact (aloo_one_shot_caching wCalcCached [[5]] [[1]] [[9]] [2] [7] 3 4 true false).1 rfl
  · have h := (aloo_one_shot_caching wCalcFresh [] [[1]] [[1]] [2] [2] 3 3 false false).2 rfl
    exact ⟨h.1, h.2 rfl⟩

/-- The `get_aloo_fitted_parameters` contains no `warnings.warn` call: the
warnings component of its result is empty on every path. -/
theorem getAloo_warnings_empty (clc : GlmAlooCalculator) (X : Mat) (y : Vec)
    (a : ℚ) (c : Bool) :
    (getAlooFittedParameters clc X y a c).2.2 = [] := by
  unfold getAlooFittedParameters
  rcases clc.looFittedParameters with _ | m
  · rcases alooCompute clc X y a with e | p
    · rfl
    · rcases c <;> rfl
  · rfl

/-- C9 counterexample: for a concrete estimator exposing neither `alpha`
nor `C`, the call to `get_aloo_fitted_parameters` issues no warning at all
(the claimed warning is in fact issued by the PPM `_fit_model` methods,
not by this function). -/
theorem aloo_no_knob_counterexample :
    (GlmEstimator.hasAlpha { wAlphaEst with hasAlpha := false } = false
      ∧ GlmEstimator.hasC { wAlphaEst with hasAlpha := false } = false)
    ∧ (getAlooFittedParameters
        { wCalcFresh with est := { wAlphaEst with hasAlpha := false } }
        [[1], [0]] [1, 0] 5 false).2.2 = ([] : List String) :=
  ⟨⟨rfl, rfl⟩,
    getAloo_warnings_empty
      { wCalcFresh with est := { wAlphaEst with hasAlpha := false } }
      [[1], [0]] [1, 0] 5 false⟩

/-- C9 (amended): when the estimator exposes neither an `alpha` nor a `C`
attribute, `get_aloo_fitted_parameters` issues no warning and treats the
regularization strength as 0 for the curvature term: the whole call is
identical to one passing `alpha = 0`, whatever `alpha` was given. -/
theorem aloo_no_knob_amended (clc : GlmAlooCalculator) (X : Mat) (y : Vec)
    (a : ℚ) (c : Bool)
    (h1 : clc.est.hasAlpha = false) (h2 : clc.est.hasC = false) :
    (getAlooFittedParameters clc X y a c).2.2 = []
    ∧ alooCompute clc X y a = alooCompute clc X y 0
    ∧ getAlooFittedParameters clc X y a c = getAlooFittedParameters clc X y 0 c := by
  have hknob : ∀ b : ℚ, setRegKnob clc.est b = (clc.est, 0) := by
    intro b
    unfold setRegKnob
    rw [h1, h2]
    simp
  have hcomp : alooCompute clc X y a = alooCompute clc X y 0 := by
    unfold alooCompute
    rw [hknob a, hknob 0]
  refine ⟨getAloo_warnings_empty clc X y a c, hcomp, ?_⟩
  unfold getAlooFittedParameters
  rw [hknob a, hknob 0, hcomp]

/-- Witness for C9's amended statement at a concrete no-knob estimator. -/
theorem aloo_no_knob_amended_witness :
    (getAlooFittedParameters
        { wCalcFresh with est := { wAlphaEst with hasAlpha := false } }
        [[1], [0]] [1, 0] 5 false).2.2 = []
    ∧ alooCompute { wCalcFresh with est := { wAlphaEst with hasAlpha := false } }
        [[1], [0]] [1, 0] 5 =
      alooCompute { wCalcFresh with est := { wAlphaEst with hasAlpha := false } }
        [[1], [0]] [1, 0] 0
    ∧ getAlooFittedParameters
        { wCalcFresh with est := { wAlphaEst with hasAlpha := false } }
        [[1], [0]] [1, 0] 5 false =
      getAlooFittedParameters
        { wCalcFresh with est := { wAlphaEst with hasAlpha := false } }
        [[1], [0]] [1, 0] 0 false :=
  aloo_no_knob_amended
    { wCalcFresh with est := { wAlphaEst with hasAlpha := false } }
    [[1], [0]] [1, 0] 5 false rfl rfl

/-! ### Claim C2: `GenericLOOPPM._fit_partial_predictions` -/

/-- Python indexing `row[i]`, with `-1` selecting the last entry. -/
def pyGet (row : Vec) (i : Int) : ℚ :=
  if 0 ≤ i then row.getD i.toNat 0 else row.getD (row.length - i.natAbs) 0

/-- The `_trim_values`: clip into `[trim, 1 - trim]` when a trim fraction is
configured; the `assert` on the fraction's range is modelled as an error. -/
def trimValues (trim : Option ℚ) (v : ℚ) : Except String ℚ :=
  match trim with
  | Option.none => Except.ok v
  | some t =>
    if 0 < t ∧ t < 1 / 2 then Except.ok (min (max v t) (1 - t))
    else Except.error "Limit must be between 0 and 0.5"

/-- The `GlmAlooCalculator.score_to_pred`: link, then trim. -/
def scoreToPred (clc : GlmAlooCalculator) (s : ℚ) : Except String ℚ :=
  trimValues clc.trim (clc.linkFn s)

/-- The partial-parameter payload returned by
`GenericLOOPPM._fit_partial_predictions`: a plain Python list (the
degenerate `[intercept]` case) or the reduced per-sample LOO parameter
matrix. -/
inductive PartialParamsOut
  | pyList (l : Vec)
  | npMat (m : Mat)
deriving DecidableEq, Repr

/-- The common tail of `GenericLOOPPM._fit_partial_predictions` after the
mode dispatch: append the intercept column to the selected data and the
index `-1` to the selected column indices, and then either return the
repeated intercept-only prediction with the `[intercept]` parameter list
(when `fixed_intercept` is set and the appended index list has exactly one
entry), or predict row-wise from the cached per-sample ALOO coefficient
matrix restricted to the selected columns plus the intercept.  The
source's no-argument call `get_aloo_fitted_parameters()` returns the cache
when present and otherwise fails (it would call `fit(None, None)`). -/
def genLOOTail (fixedIntercept : Bool) (clc : GlmAlooCalculator)
    (colIndices : List Nat) (reducedData : Mat) (yT : Vec) :
    Except String (Vec × PartialParamsOut) :=
  let reducedData1 := reducedData.map (fun row => row ++ [1])
  let colIndices1 : List Int := colIndices.map Int.ofNat ++ [-1]
  if fixedIntercept = true ∧ colIndices1.length = 1 then
    match clc.est.interceptAttr with
    | Option.none => Except.error "AttributeError: intercept_"
    | some b =>
      match scoreToPred clc b with
      | Except.error e => Except.error e
      | Except.ok p =>
        Except.ok (List.replicate yT.length p, PartialParamsOut.pyList [b])
  else
    match clc.looFittedParameters with
    | Option.none => Except.error "TypeError: fit called with None data"
    | some M =>
      let reducedParams := (List.transpose M).map (fun row => colIndices1.map (pyGet row))
      let scores := List.zipWith (fun prow drow => dotQ prow drow) reducedParams reducedData1
      match scores.mapM (scoreToPred clc) with
      | Except.error e => Except.error e
      | Except.ok preds => Except.ok (preds, PartialParamsOut.npMat reducedParams)

/-- The `GenericLOOPPM._fit_partial_predictions` proper: require a held-out
target, dispatch on `mode` to pick the block or its complement, then run
the common tail. -/
def fitPartialPredsGenLOO (fixedIntercept : Bool) (clc : GlmAlooCalculator)
    (k : Nat) (mode : String) (testData : BPD) (yTest : Option Vec) :
    Except String (Vec × PartialParamsOut) :=
  match yTest with
  | Option.none => Except.error "Need to supply y_test for LOO"
  | some yT =>
    if mode = "keep_k" then
      genLOOTail fixedIntercept clc (testData.getBlockIndices k) (testData.getBlock k) yT
    else if mode = "keep_rest" then
      genLOOTail fixedIntercept clc (testData.getAllExceptBlockIndices k)
        (testData.getAllExceptBlock k) yT
    else Except.error "Invalid mode"

/-- Whether a `_fit_partial_predictions` result took the degenerate
intercept-only branch (plain-list parameter payload). -/
def isInterceptOnlyResult : Except String (Vec × PartialParamsOut) → Bool
  | Except.ok (_, PartialParamsOut.pyList _) => true
  | _ => false

/-- The column indices selected by `mode` for feature `k`. -/
def selIndices (testData : BPD) (k : Nat) (mode : String) : List Nat :=
  if mode = "keep_k" then testData.getBlockIndices k
  else testData.getAllExceptBlockIndices k

/-- A calculator with a fitted intercept and a cached 2-sample LOO matrix
over one feature plus intercept, used for the C2 concrete instances. -/
def wC2Calc : GlmAlooCalculator :=
  { wCalcCached with
    est := { wAlphaEst with interceptAttr := some 7 },
    looFittedParameters := some [[1, 1], [0, 0]] }

/-- C2 counterexample: a block with exactly one column does NOT degenerate
to the intercept-only prediction (the `len(col_indices) == 1` check runs
after the intercept index `-1` is appended, so a one-column block yields an
index list of length two and takes the ALOO-matrix branch). -/
theorem genloo_one_column_not_intercept_only :
    BPD.blockWidth ⟨[[[2], [3]]]⟩ 0 = 1
    ∧ isInterceptOnlyResult
        (fitPartialPredsGenLOO true wC2Calc 0 "keep_k" ⟨[[[2], [3]]]⟩ (some [1, 2])) = false
    ∧ fitPartialPredsGenLOO true wC2Calc 0 "keep_k" ⟨[[[2], [3]]]⟩ (some [1, 2]) ≠
        Except.ok (List.replicate 2 (wC2Calc.linkFn 7), PartialParamsOut.pyList [7]) := by
  refine ⟨rfl, rfl, ?_⟩
  intro h
  exact absurd (congrArg isInterceptOnlyResult h) (by simp [isInterceptOnlyResult]; rfl)

/-- The ALOO-matrix branch never produces a plain-list payload. -/
theorem isInterceptOnly_matrix_branch (clc : GlmAlooCalculator) (scores : Vec)
    (RP : Mat) :
    isInterceptOnlyResult
      (match scores.mapM (scoreToPred clc) with
       | Except.error e => Except.error e
       | Except.ok preds => Except.ok (preds, PartialParamsOut.npMat RP)) = false := by
  cases hm : scores.mapM (scoreToPred clc) <;> rfl

/-- The tail degenerates to the intercept-only return on an empty selected
index list (under `fixed_intercept`). -/
theorem genLOOTail_empty (clc : GlmAlooCalculator) (red : Mat) (yT : Vec)
    (b p : ℚ) (hb : clc.est.interceptAttr = some b)
    (hp : scoreToPred clc b = Except.ok p) :
    genLOOTail true clc [] red yT =
      Except.ok (List.replicate yT.length p, PartialParamsOut.pyList [b]) := by
  simp [genLOOTail, hb, hp]

/-- The tail never takes the intercept-only branch on a nonempty selected
index list. -/
theorem genLOOTail_nonempty (clc : GlmAlooCalculator) (idx : List Nat)
    (red : Mat) (yT : Vec) (h1 : 1 ≤ idx.length) :
    isInterceptOnlyResult (genLOOTail true clc idx red yT) = false := by
  have hcond : ¬(true = true ∧ (idx.map Int.ofNat ++ ([-1] : List Int)).length = 1) := by
    intro hc
    have h2 := hc.2
    simp only [List.length_append, List.length_map, List.length_cons,
      List.length_nil] at h2
    omega
  unfold genLOOTail
  rw [if_neg hcond]
  rcases hloo : clc.looFittedParameters with _ | M
  · rfl
  · exact isInterceptOnly_matrix_branch clc _ _

/-- C2 (amended): with `fixed_intercept` set, the degenerate intercept-only
return happens exactly when the block selected by `mode` has ZERO columns
(the `len(col_indices) == 1` check runs after the intercept index is
appended); a selected block with one or more columns always takes the
per-sample ALOO coefficient-matrix branch. -/
theorem genloo_intercept_only_iff_empty_block (clc : GlmAlooCalculator)
    (k : Nat) (mode : String) (testData : BPD) (yT : Vec) (b p : ℚ)
    (hmode : mode = "keep_k" ∨ mode = "keep_rest")
    (hb : clc.est.interceptAttr = some b)
    (hp : scoreToPred clc b = Except.ok p) :
    ((selIndices testData k mode).length = 0 →
      fitPartialPredsGenLOO true clc k mode testData (some yT) =
        Except.ok (List.replicate yT.length p, PartialParamsOut.pyList [b]))
    ∧ (1 ≤ (selIndices testData k mode).length →
      isInterceptOnlyResult
        (fitPartialPredsGenLOO true clc k mode testData (some yT)) = false) := by
  rcases hmode with rfl | rfl
  · constructor
    · intro h0
      have hnil : testData.getBlockIndices k = [] :=
        List.length_eq_zero.mp (by simpa [selIndices] using h0)
      show genLOOTail true clc (testData.getBlockIndices k) (testData.getBlock k) yT = _
      rw [hnil]
      exact genLOOTail_empty clc _ yT b p hb hp
    · intro h1
      have h1' : 1 ≤ (testData.getBlockIndices k).length := by
        simpa [selIndices] using h1
      exact genLOOTail_nonempty clc _ _ yT h1'
  · constructor
    · intro h0
      have hnil : testData.getAllExceptBlockIndices k = [] :=
        List.length_eq_zero.mp (by simpa [selIndices] using h0)
      show genLOOTail true clc (testData.getAllExceptBlockIndices k)
        (testData.getAllExceptBlock k) yT = _
      rw [hnil]
      exact genLOOTail_empty clc _ yT b p hb hp
    · intro h1
      have h1' : 1 ≤ (testData.getAllExceptBlockIndices k).length := by
        simpa [selIndices] using h1
      exact genLOOTail_nonempty clc _ _ yT h1'

/-- Witness for C2's amended statement: a zero-column block degenerates to
the repeated intercept prediction. -/
theorem genloo_intercept_only_iff_empty_block_witness :
    ((selIndices ⟨[[[], []]]⟩ 0 "keep_k").length = 0 →
      fitPartialPredsGenLOO true wC2Calc 0 "keep_k" ⟨[[[], []]]⟩ (some [1, 2]) =
        Except.ok (List.replicate ([1, 2] : Vec).length 7, PartialParamsOut.pyList [7]))
    ∧ (1 ≤ (selIndices ⟨[[[], []]]⟩ 0 "keep_k").length →
      isInterceptOnlyResult
        (fitPartialPredsGenLOO true wC2Calc 0 "keep_k" ⟨[[[], []]]⟩ (some [1, 2])) = false) :=
  genloo_intercept_only_iff_empty_block wC2Calc 0 "keep_k" ⟨[[[], []]]⟩ [1, 2] 7 7
    (Or.inl rfl) rfl rfl

end Imodels
